import Mathlib

/-!
Verification of `packages/hurl/src/runner/bindings.rs` (variable-to-file
synchronization: `BoundVariables::process_bindings`, `BoundVariables::bind_variable`,
`BoundVariables::is_bound`).

The Rust code is shallowly embedded: the filesystem and the fallible standard
library calls (`exists`, `read_to_string`, `create_dir_all`, `File::create`,
`write_all`, `sync_all`, `rename`, `metadata`, `set_permissions`) are modelled
as an explicit state plus outcome oracles, so that each call can succeed or
fail exactly at the points the source consults them. Templates and the context
directory are external collaborators and are passed in as parameters.
-/

/-- Source location attached to AST nodes; opaque to this fragment. -/
abbrev SourceInfo : Type := Nat

/-- A template expression (`hurl_core::ast::Template`): opaque content plus its
source location (`param.name.source_info` is read by the code). -/
structure Template (τ : Type) where
  content : τ
  sourceInfo : SourceInfo
deriving DecidableEq

/-- `hurl_core::ast::BindingExpr`: only the `File { filename, .. }` variant. -/
inductive BindingExpr (τ : Type) where
  | file (filename : Template τ)
deriving DecidableEq

/-- `hurl_core::ast::BindingParam`: a binding declaration. -/
structure BindingParam (τ : Type) where
  name : Template τ
  value : BindingExpr τ
deriving DecidableEq

/-- Runner values (`runner::value::Value`). Only two behaviours matter to this
fragment: `Value::String(s)` passes through unchanged, every other variant is
rendered with its `Display` implementation; `other d` stands for a non-string
value whose `Display` rendering is `d`. -/
inductive Value where
  | string (s : String)
  | other (display : String)
deriving DecidableEq

/-- The serialization used inside `bind_variable`:
`match value { Value::String(s) => s.clone(), other => other.to_string() }`. -/
def Value.toDisplayString : Value → String
  | .string s => s
  | .other d => d

/-- `RunnerErrorKind`: the two variants constructed by this file, plus a
carrier for errors propagated verbatim from the template collaborator. -/
inductive RunnerErrorKind where
  | fileReadAccess (path : String)
  | fileWriteAccess (path : String) (error : String)
  | templateFailure (message : String)
deriving DecidableEq

/-- `RunnerError::new(source_info, kind, false)`; the final `Bool` is the
`assert` flag, always `false` here. -/
structure RunnerError where
  sourceInfo : SourceInfo
  kind : RunnerErrorKind
  assertFlag : Bool
deriving DecidableEq

/-- The variable store (`VariableSet`), viewed through the operations the code
uses: lookup and inserting (overwriting) a value. -/
abbrev VariableSet : Type := String → Option Value

/-- `variables.insert(name, value)`: overwrite semantics. -/
def VariableSet.insert (vars : VariableSet) (name : String) (v : Value) : VariableSet :=
  fun n => if n = name then some v else vars n

/-- `BoundVariables`: maps variable name to file path
(`mappings: HashMap<String, String>`). -/
structure BoundVariables where
  mappings : String → Option String

/-- `self.mappings.insert(var_name, file_path)`: overwrite semantics. -/
def BoundVariables.insert (bv : BoundVariables) (name path : String) : BoundVariables :=
  ⟨fun n => if n = name then some path else bv.mappings n⟩

/-- `BoundVariables::is_bound`: `self.mappings.contains_key(var_name)`. -/
def BoundVariables.is_bound (bv : BoundVariables) (varName : String) : Bool :=
  (bv.mappings varName).isSome

/-- Read-side filesystem oracle for `process_bindings`: the code issues two
independent observations, `file_path.exists()` and `fs::read_to_string`, with
no consistency enforced between them (matching the source's check-then-read). -/
structure ReadFS where
  pathExists : String → Bool
  readToString : String → Except String String

/-- `content.trim_end_matches('\n')`: removes ALL trailing `'\n'` characters
(not just one), leaving every other character intact. -/
def trimEndNewlines (s : String) : String :=
  String.mk ((s.data.reverse.dropWhile (fun c => c = '\n')).reverse)

/-- `BoundVariables::process_bindings`, as a fold over the declarations. Each
loop iteration renders the variable name, renders the filename, resolves it
against the context directory, unconditionally registers the mapping, and then
hydrates the variable from the file when it exists; the first template or read
failure aborts the remaining declarations. Returns the final registry, the
final variable store, and the `Result<(), RunnerError>`. `evalT` is
`template::eval_template`, `resolvedPath` is `context_dir.resolved_path`
composed with `to_string_lossy`. -/
def process_bindings {τ : Type} (evalT : Template τ → VariableSet → Except RunnerError String)
    (resolvedPath : String → String) (rfs : ReadFS) (bv : BoundVariables)
    (params : List (BindingParam τ)) (vars : VariableSet) :
    BoundVariables × VariableSet × Except RunnerError Unit :=
  match params with
  | [] => (bv, vars, .ok ())
  | p :: rest =>
    match evalT p.name vars with
    | .error e => (bv, vars, .error e)
    | .ok varName =>
      match p.value with
      | .file filename =>
        match evalT filename vars with
        | .error e => (bv, vars, .error e)
        | .ok fname =>
          let filePath := resolvedPath fname
          let bv1 := bv.insert varName filePath
          if rfs.pathExists filePath then
            match rfs.readToString filePath with
            | .ok content =>
              let content1 := trimEndNewlines content
              let vars1 := vars.insert varName (Value.string content1)
              process_bindings evalT resolvedPath rfs bv1 rest vars1
            | .error _e =>
              (bv1, vars, .error ⟨p.name.sourceInfo, .fileReadAccess filePath, false⟩)
          else
            process_bindings evalT resolvedPath rfs bv1 rest vars

/-- Writable filesystem state for `bind_variable`: file contents, directory
existence, and permission bits per path. -/
structure FS where
  files : String → Option String
  dirs : String → Bool
  mode : String → Nat

/-- Overwrite (or remove, with `none`) the content stored at a path. -/
def FS.setFile (fs : FS) (p : String) (c : Option String) : FS :=
  { fs with files := fun q => if q = p then c else fs.files q }

/-- Mark a directory as existing (effect of a successful `create_dir_all`). -/
def FS.setDir (fs : FS) (d : String) : FS :=
  { fs with dirs := fun q => if q = d then true else fs.dirs q }

/-- Set the permission bits of a path (effect of `set_permissions`). -/
def FS.setMode (fs : FS) (p : String) (m : Nat) : FS :=
  { fs with mode := fun q => if q = p then m else fs.mode q }

/-- Outcome oracle for one `bind_variable` call: what each fallible standard
library call would return if the code reaches it. Error payloads model
`e.to_string()`. -/
structure WriteEnv where
  createDirResult : Except String Unit
  createResult : Except String Unit
  writeResult : Except String Unit
  syncResult : Except String Unit
  renameResult : Except String Unit
  metadataOk : Bool
  setPermsOk : Bool

/-- Result of one `bind_variable` call: `Ok(())`, `Err(RunnerError)`, or a
panic (the `.unwrap()` on `fs::metadata` in the permission block). -/
inductive BindOutcome where
  | ok
  | err (e : RunnerError)
  | panicked
deriving DecidableEq

/-- `BoundVariables::bind_variable`. If the name is unregistered the call
returns immediately. Otherwise: serialize the value; `create_dir_all` the
parent when it does not exist; `File::create` the sibling `"{file_path}.tmp"`
(truncating to empty); `write_all` the bytes; `sync_all`; `rename` onto the
target; then on unix read `fs::metadata(file_path).unwrap()` (panic on
failure) and `let _ = fs::set_permissions(...)` with mode `0o600` (failure
discarded). Every step failure before the permission block is wrapped as
`FileWriteAccess { path: file_path, error }`. `parent` models
`Path::new(file_path).parent()`. Returns the outcome and the filesystem
after the call. -/
def bind_variable (parent : String → Option String) (env : WriteEnv)
    (bv : BoundVariables) (varName : String) (value : Value)
    (sourceInfo : SourceInfo) (fs : FS) : BindOutcome × FS :=
  match bv.mappings varName with
  | none => (.ok, fs)
  | some filePath =>
    let valueStr := value.toDisplayString
    let dirStep : Except RunnerError FS :=
      match parent filePath with
      | none => .ok fs
      | some d =>
        if fs.dirs d then .ok fs
        else
          match env.createDirResult with
          | .ok _ => .ok (fs.setDir d)
          | .error e => .error ⟨sourceInfo, .fileWriteAccess filePath e, false⟩
    match dirStep with
    | .error e => (.err e, fs)
    | .ok fs1 =>
      let tempPath := filePath ++ ".tmp"
      match env.createResult with
      | .error e => (.err ⟨sourceInfo, .fileWriteAccess filePath e, false⟩, fs1)
      | .ok _ =>
        let fs2 := fs1.setFile tempPath (some "")
        match env.writeResult with
        | .error e => (.err ⟨sourceInfo, .fileWriteAccess filePath e, false⟩, fs2)
        | .ok _ =>
          let fs3 := fs2.setFile tempPath (some valueStr)
          match env.syncResult with
          | .error e => (.err ⟨sourceInfo, .fileWriteAccess filePath e, false⟩, fs3)
          | .ok _ =>
            match env.renameResult with
            | .error e => (.err ⟨sourceInfo, .fileWriteAccess filePath e, false⟩, fs3)
            | .ok _ =>
              let fs4 := (fs3.setFile filePath (some valueStr)).setFile tempPath none
              if env.metadataOk then
                let fs5 := if env.setPermsOk then fs4.setMode filePath 0o600 else fs4
                (.ok, fs5)
              else
                (.panicked, fs4)

/-- The spec's description of hydration trimming, written from the spec's own
words ("strip exactly one trailing line terminator if present"): removes one
trailing `'\n'` only. Used solely to state claim C1 as written, for comparison
with the code's `trimEndNewlines` (which removes every trailing `'\n'`). -/
def specStripOneNewline (s : String) : String :=
  if s.data.getLast? = some '\n' then String.mk s.data.dropLast else s

/-- The (rendered name, resolved path) pairs registered during a
`process_bindings` pass, in processing order. This mirrors the recursion of
`process_bindings` exactly (same rendering, same store evolution, same early
stop on template error, read error, or end of list); it exists to state which
mappings a pass establishes. The registry itself never influences rendering,
so the trace does not depend on it. -/
def bindingTrace {τ : Type} (evalT : Template τ → VariableSet → Except RunnerError String)
    (resolvedPath : String → String) (rfs : ReadFS)
    (params : List (BindingParam τ)) (vars : VariableSet) : List (String × String) :=
  match params with
  | [] => []
  | p :: rest =>
    match evalT p.name vars with
    | .error _ => []
    | .ok varName =>
      match p.value with
      | .file filename =>
        match evalT filename vars with
        | .error _ => []
        | .ok fname =>
          let filePath := resolvedPath fname
          if rfs.pathExists filePath then
            match rfs.readToString filePath with
            | .ok content =>
              (varName, filePath) ::
                bindingTrace evalT resolvedPath rfs rest
                  (VariableSet.insert vars varName
                    (Value.string (trimEndNewlines content)))
            | .error _ => [(varName, filePath)]
          else
            (varName, filePath) :: bindingTrace evalT resolvedPath rfs rest vars

/-- Folds a list of (name, path) registrations into a registry, in order. -/
def insertAll (bv : BoundVariables) : List (String × String) → BoundVariables
  | [] => bv
  | (n, pth) :: rest => insertAll (bv.insert n pth) rest

/-- The path associated with the LAST occurrence of a name in a registration
list, if any: the value that overwrite-on-insert semantics leaves in place. -/
def lastAssoc (n : String) : List (String × String) → Option String
  | [] => none
  | (m, pth) :: rest =>
    match lastAssoc n rest with
    | some q => some q
    | none => if m = n then some pth else none

/-- Template evaluator for concrete instances: a template whose content is a
literal string renders to itself. -/
def literalEval : Template String → VariableSet → Except RunnerError String :=
  fun t _ => .ok t.content

/-- Identity context-directory resolution, for concrete instances. -/
def idResolve : String → String := fun s => s

/-- The empty variable store. -/
def emptyVars : VariableSet := fun _ => none

/-- A registry with no mappings. -/
def emptyBound : BoundVariables := ⟨fun _ => none⟩

/-- A registry binding variable `"x"` to path `"f"`. -/
def sampleBound : BoundVariables := ⟨fun n => if n = "x" then some "f" else none⟩

/-- A parent-path function for concrete instances: every path sits in `"d"`. -/
def sampleParent : String → Option String := fun _ => some "d"

/-- An empty filesystem: no files, no directories. -/
def emptyFS : FS := ⟨fun _ => none, fun _ => false, fun _ => 0⟩

/-- Every fallible call succeeds. -/
def envAllOk : WriteEnv := ⟨.ok (), .ok (), .ok (), .ok (), .ok (), true, true⟩

/-- Everything succeeds except `set_permissions`. -/
def envPermFail : WriteEnv := ⟨.ok (), .ok (), .ok (), .ok (), .ok (), true, false⟩

/-- Everything succeeds except the `fs::metadata` call in the permission
block (the one the code `.unwrap()`s). -/
def envMetaFail : WriteEnv := ⟨.ok (), .ok (), .ok (), .ok (), .ok (), false, true⟩

/-- `File::create` on the temporary path fails. -/
def envCreateFail : WriteEnv := ⟨.ok (), .error "denied", .ok (), .ok (), .ok (), true, true⟩

/-- `write_all` fails after the temporary file was created. -/
def envWriteFail : WriteEnv := ⟨.ok (), .ok (), .error "disk full", .ok (), .ok (), true, true⟩

/-- `sync_all` fails after the bytes were written. -/
def envSyncFail : WriteEnv := ⟨.ok (), .ok (), .ok (), .error "io", .ok (), true, true⟩

/-- A read-side filesystem with exactly one file at path `p` holding `c`. -/
def readFSWith (p c : String) : ReadFS :=
  ⟨fun q => q == p, fun q => if q = p then .ok c else .error "missing"⟩

/-- A read-side filesystem with no paths at all. -/
def readFSEmpty : ReadFS := ⟨fun _ => false, fun _ => .error "missing"⟩

/-- A read-side filesystem where path `p` exists but every read is denied. -/
def readFSDenied (p : String) : ReadFS :=
  ⟨fun q => q == p, fun _ => .error "permission denied"⟩

/-- A literal binding declaration `name -> file`. -/
def declParam (n f : String) (s1 s2 : SourceInfo) : BindingParam String :=
  ⟨⟨n, s1⟩, .file ⟨f, s2⟩⟩

/-- Two declarations re-declaring the same variable name with different
backing files. -/
def paramsRedecl : List (BindingParam String) :=
  [declParam "x" "f1" 0 1, declParam "x" "f2" 2 3]

/-- Success of the parent-directory step of `bind_variable` for a target path:
either the path has no parent, or the parent directory already exists, or
`create_dir_all` succeeds. -/
def dirStepSucceeds (parent : String → Option String) (env : WriteEnv) (fs : FS)
    (filePath : String) : Prop :=
  match parent filePath with
  | none => True
  | some d => fs.dirs d = true ∨ env.createDirResult = .ok ()

theorem ne_append_tmp (p : String) : ¬ (p = p ++ ".tmp") := by
  intro h
  have h2 := congrArg String.length h
  rw [String.length_append] at h2
  have h3 : ".tmp".length = 4 := rfl
  rw [h3] at h2
  omega

theorem trimEndNewlines_append_replicate (s : String) :
    ∃ k, s.data = (trimEndNewlines s).data ++ List.replicate k '\n' := by
  refine ⟨(s.data.reverse.takeWhile (fun c => decide (c = '\n'))).length, ?_⟩
  have h1 : (trimEndNewlines s).data
      = (s.data.reverse.dropWhile (fun c => decide (c = '\n'))).reverse := rfl
  have h2 : s.data.reverse.takeWhile (fun c => decide (c = '\n'))
      = List.replicate (s.data.reverse.takeWhile (fun c => decide (c = '\n'))).length '\n' := by
    apply List.eq_replicate_of_mem
    intro b hb
    have hb2 := List.mem_takeWhile_imp hb
    simpa using hb2
  have h3 := congrArg List.reverse h2
  rw [List.reverse_replicate] at h3
  calc s.data
      = s.data.reverse.reverse := by rw [List.reverse_reverse]
    _ = (s.data.reverse.takeWhile (fun c => decide (c = '\n'))
          ++ s.data.reverse.dropWhile (fun c => decide (c = '\n'))).reverse := by
          rw [List.takeWhile_append_dropWhile]
    _ = (s.data.reverse.dropWhile (fun c => decide (c = '\n'))).reverse
          ++ (s.data.reverse.takeWhile (fun c => decide (c = '\n'))).reverse := by
          rw [List.reverse_append]
    _ = (trimEndNewlines s).data
          ++ List.replicate (s.data.reverse.takeWhile (fun c => decide (c = '\n'))).length '\n' := by
          rw [h1, h3]

theorem trimEndNewlines_last_not_newline (s : String) :
    ∀ c, (trimEndNewlines s).data.getLast? = some c → c ≠ '\n' := by
  intro c hc
  have h1 : (trimEndNewlines s).data
      = (s.data.reverse.dropWhile (fun c => decide (c = '\n'))).reverse := rfl
  rw [h1, List.getLast?_reverse] at hc
  have h2 := List.head?_dropWhile_not (fun c => decide (c = '\n')) s.data.reverse
  rw [hc] at h2
  simpa using h2

/-- Claim C5: `bind_variable` on a name that is not registered in the mappings
returns success immediately and has no observable effect: the filesystem state
is returned exactly as it was (no file, directory, temporary artifact, or mode
change). -/
theorem bind_variable_unregistered_noop (parent : String → Option String)
    (env : WriteEnv) (bv : BoundVariables) (varName : String) (value : Value)
    (sourceInfo : SourceInfo) (fs : FS) (hun : bv.mappings varName = none) :
    bind_variable parent env bv varName value sourceInfo fs = (.ok, fs) := by
  simp [bind_variable, hun]

/-- Witness for `bind_variable_unregistered_noop` at a concrete input. -/
theorem bind_variable_unregistered_noop_witness :
    emptyBound.mappings "x" = none ∧
      bind_variable sampleParent envAllOk emptyBound "x" (Value.string "v") 0 emptyFS
        = (.ok, emptyFS) :=
  ⟨rfl, bind_variable_unregistered_noop sampleParent envAllOk emptyBound "x"
    (Value.string "v") 0 emptyFS rfl⟩

/-- Claim C2: for every registered variable name and every value, after a
successful `bind_variable` call the target file's content equals exactly the
canonical string form of the bound value (`Value.toDisplayString`: string
values pass through, non-string values use their display form), with no
trailing terminator appended. -/
theorem bind_variable_success_roundtrip (parent : String → Option String)
    (env : WriteEnv) (bv : BoundVariables) (varName : String) (value : Value)
    (sourceInfo : SourceInfo) (fs : FS) (p : String)
    (hreg : bv.mappings varName = some p)
    (hok : (bind_variable parent env bv varName value sourceInfo fs).1 = .ok) :
    (bind_variable parent env bv varName value sourceInfo fs).2.files p
      = some value.toDisplayString := by
  rcases env with ⟨cd, cr, wr, sy, rn, mo, sp⟩
  rcases hpar : parent p with _ | d <;>
    [skip; rcases hdir : fs.dirs d with _ | _] <;>
    rcases cd with cde | ⟨⟩ <;> rcases cr with cre | ⟨⟩ <;> rcases wr with wre | ⟨⟩ <;>
    rcases sy with sye | ⟨⟩ <;> rcases rn with rne | ⟨⟩ <;> cases mo <;> cases sp <;>
    simp_all [bind_variable, FS.setFile, FS.setDir, FS.setMode, ne_append_tmp]

/-- Witness for `bind_variable_success_roundtrip` at a concrete input (a
non-string value, display form `"42"`). -/
theorem bind_variable_success_roundtrip_witness :
    sampleBound.mappings "x" = some "f"
      ∧ (bind_variable sampleParent envAllOk sampleBound "x" (Value.other "42") 0 emptyFS).1
        = .ok
      ∧ (bind_variable sampleParent envAllOk sampleBound "x" (Value.other "42") 0 emptyFS).2.files "f"
        = some (Value.other "42").toDisplayString :=
  ⟨rfl, by decide,
    bind_variable_success_roundtrip sampleParent envAllOk sampleBound "x"
      (Value.other "42") 0 emptyFS "f" rfl (by decide)⟩

/-- Claim C7: for a registered name, every error returned by `bind_variable`
(in particular any failure at directory creation, temporary-file creation,
write, or flush time) is a write-access error carrying the original
(non-temporary) target path, an underlying cause, and the call's source
location; and the target file's content is left untouched. -/
theorem bind_variable_error_reporting (parent : String → Option String)
    (env : WriteEnv) (bv : BoundVariables) (varName : String) (value : Value)
    (sourceInfo : SourceInfo) (fs : FS) (p : String) (e : RunnerError)
    (hreg : bv.mappings varName = some p)
    (herr : (bind_variable parent env bv varName value sourceInfo fs).1 = .err e) :
    (∃ msg, e.kind = .fileWriteAccess p msg) ∧ e.sourceInfo = sourceInfo
      ∧ e.assertFlag = false
      ∧ (bind_variable parent env bv varName value sourceInfo fs).2.files p = fs.files p := by
  rcases env with ⟨cd, cr, wr, sy, rn, mo, sp⟩
  simp only [bind_variable, hreg] at herr ⊢
  rcases hpar : parent p with _ | d <;>
    [simp only [hpar] at herr ⊢;
     (rcases hdir : fs.dirs d with _ | _ <;> simp only [hpar, hdir] at herr ⊢)] <;>
    rcases cd with cde | ⟨⟩ <;> rcases cr with cre | ⟨⟩ <;> rcases wr with wre | ⟨⟩ <;>
    rcases sy with sye | ⟨⟩ <;> rcases rn with rne | ⟨⟩ <;> cases mo <;>
    simp only [Bool.false_eq_true, if_true, if_false, ite_true, ite_false] at herr ⊢ <;>
    first
    | (injection herr with he; subst he;
       exact ⟨⟨_, rfl⟩, rfl, rfl, by
        simp [FS.setFile, FS.setDir, FS.setMode, ne_append_tmp]⟩)
    | simp at herr

/-- Witness for `bind_variable_error_reporting` at a concrete input
(`File::create` fails with cause `"denied"`). -/
theorem bind_variable_error_reporting_witness :
    sampleBound.mappings "x" = some "f"
      ∧ (bind_variable sampleParent envCreateFail sampleBound "x" (Value.string "v") 0 emptyFS).1
        = .err ⟨0, .fileWriteAccess "f" "denied", false⟩
      ∧ (bind_variable sampleParent envCreateFail sampleBound "x" (Value.string "v") 0 emptyFS).2.files "f"
        = emptyFS.files "f" :=
  ⟨rfl, by decide,
    (bind_variable_error_reporting sampleParent envCreateFail sampleBound "x"
      (Value.string "v") 0 emptyFS "f" ⟨0, .fileWriteAccess "f" "denied", false⟩
      rfl (by decide)).2.2.2⟩

/-- Counterexample to claim C3 as stated: the permission-tightening step can
abort `bind_variable` with a panic. With a registered name and every step
through the rename succeeding, a failure of the `fs::metadata` call inside the
permission-tightening block hits the code's `.unwrap()` and panics instead of
returning success. -/
theorem bind_variable_metadata_unwrap_panics :
    (bind_variable sampleParent envMetaFail sampleBound "x" (Value.string "v") 0 emptyFS).1
        = BindOutcome.panicked
      ∧ BindOutcome.panicked ≠ BindOutcome.ok := by
  constructor
  · decide
  · decide

/-- Claim C3 (amended): for a registered name, when every step through the
rename and the `fs::metadata` query succeed, a failure of the
`set_permissions` call is never surfaced: `bind_variable` returns success
regardless of whether `set_permissions` succeeds (`sp` arbitrary). (As
stated the claim is false: a failure of the `fs::metadata` query inside the
same permission-tightening step panics, see
`bind_variable_metadata_unwrap_panics`.) -/
theorem bind_variable_permissions_failure_swallowed
    (parent : String → Option String) (sp : Bool) (bv : BoundVariables)
    (varName : String) (value : Value) (sourceInfo : SourceInfo) (fs : FS) (p : String)
    (hreg : bv.mappings varName = some p) :
    (bind_variable parent ⟨.ok (), .ok (), .ok (), .ok (), .ok (), true, sp⟩
        bv varName value sourceInfo fs).1 = BindOutcome.ok := by
  cases sp <;>
    (rcases hpar : parent p with _ | d <;>
      [simp [bind_variable, hreg, hpar];
       (rcases hdir : fs.dirs d with _ | _ <;> simp [bind_variable, hreg, hpar, hdir])])

/-- Witness for `bind_variable_permissions_failure_swallowed` at a concrete
input where `set_permissions` fails. -/
theorem bind_variable_permissions_failure_swallowed_witness :
    envPermFail.setPermsOk = false
      ∧ (bind_variable sampleParent envPermFail sampleBound "x" (Value.string "v") 0 emptyFS).1
        = BindOutcome.ok :=
  ⟨rfl, bind_variable_permissions_failure_swallowed sampleParent false sampleBound "x"
    (Value.string "v") 0 emptyFS "f" rfl⟩

/-- Counterexample to claim C4 as stated: an exit path of `bind_variable` can
leave a stray temporary file. With variable `"x"` registered to path `"f"`
and `write_all` failing after `File::create` succeeded, the call returns an
error, no rename has committed, and the temporary file `"f.tmp"` is left on
disk. -/
theorem bind_variable_write_failure_leaves_temp :
    (bind_variable sampleParent envWriteFail sampleBound "x" (Value.string "v") 0 emptyFS).1
        = BindOutcome.err ⟨0, .fileWriteAccess "f" "disk full", false⟩
      ∧ (bind_variable sampleParent envWriteFail sampleBound "x" (Value.string "v") 0 emptyFS).2.files "f.tmp"
        = some "" := by
  constructor
  · decide
  · decide

set_option maxHeartbeats 1600000 in
/-- Claim C4 (amended): for a registered name with no pre-existing temporary
file, the temporary file's disposition on each exit path of `bind_variable`
is: on a success (or permission-panic) exit the rename has committed and the
temporary file is gone; on an error exit the temporary file remains on disk
exactly when the parent-directory step and the temporary-file creation had
succeeded — error exits after the temporary file is created (write, flush, or
rename failure) do NOT remove it. -/
theorem bind_variable_temp_disposition (parent : String → Option String)
    (env : WriteEnv) (bv : BoundVariables) (varName : String) (value : Value)
    (sourceInfo : SourceInfo) (fs : FS) (p : String)
    (hreg : bv.mappings varName = some p)
    (hpre : fs.files (p ++ ".tmp") = none) :
    (((bind_variable parent env bv varName value sourceInfo fs).1 = BindOutcome.ok
        ∨ (bind_variable parent env bv varName value sourceInfo fs).1 = BindOutcome.panicked) →
      (bind_variable parent env bv varName value sourceInfo fs).2.files (p ++ ".tmp") = none)
    ∧ (∀ e, (bind_variable parent env bv varName value sourceInfo fs).1 = BindOutcome.err e →
        (((bind_variable parent env bv varName value sourceInfo fs).2.files (p ++ ".tmp")).isSome
          ↔ (dirStepSucceeds parent env fs p ∧ env.createResult = .ok ()))) := by
  rcases env with ⟨cd, cr, wr, sy, rn, mo, sp⟩
  constructor
  · intro hok
    rcases hpar : parent p with _ | d <;>
      [skip; rcases hdir : fs.dirs d with _ | _] <;>
      rcases cd with cde | ⟨⟩ <;> rcases cr with cre | ⟨⟩ <;> rcases wr with wre | ⟨⟩ <;>
      rcases sy with sye | ⟨⟩ <;> rcases rn with rne | ⟨⟩ <;> cases mo <;> cases sp <;>
      simp_all [bind_variable, FS.setFile, FS.setDir, FS.setMode]
  · intro e herr
    rcases hpar : parent p with _ | d <;>
      [skip; rcases hdir : fs.dirs d with _ | _] <;>
      rcases cd with cde | ⟨⟩ <;> rcases cr with cre | ⟨⟩ <;> rcases wr with wre | ⟨⟩ <;>
      rcases sy with sye | ⟨⟩ <;> rcases rn with rne | ⟨⟩ <;> cases mo <;> cases sp <;>
      simp_all [bind_variable, dirStepSucceeds, FS.setFile, FS.setDir, FS.setMode]

/-- Witness for `bind_variable_temp_disposition` at a concrete input where
`sync_all` fails: the temporary file remains on disk. -/
theorem bind_variable_temp_disposition_witness :
    sampleBound.mappings "x" = some "f" ∧ emptyFS.files ("f" ++ ".tmp") = none
      ∧ ((bind_variable sampleParent envSyncFail sampleBound "x" (Value.string "v") 0 emptyFS).2.files
          ("f" ++ ".tmp")).isSome = true :=
  ⟨rfl, rfl,
    ((bind_variable_temp_disposition sampleParent envSyncFail sampleBound "x"
        (Value.string "v") 0 emptyFS "f" rfl rfl).2
      ⟨0, .fileWriteAccess "f" "io", false⟩ (by decide)).mpr
      ⟨Or.inr rfl, rfl⟩⟩

/-- Counterexample to claim C1 as stated: hydration does not remove only one
trailing line terminator. With backing file content `"abc\n\n"`, the code
(`trim_end_matches('\n')`) hydrates `"abc"`, while the claim mandates
`"abc\n"` (exactly one terminator removed, the second preserved). -/
theorem process_bindings_strips_all_trailing_newlines :
    (process_bindings literalEval idResolve (readFSWith "f" "abc\n\n") emptyBound
        [declParam "x" "f" 0 1] emptyVars).2.1 "x"
      = some (Value.string "abc")
    ∧ specStripOneNewline "abc\n\n" = "abc\n"
    ∧ (process_bindings literalEval idResolve (readFSWith "f" "abc\n\n") emptyBound
        [declParam "x" "f" 0 1] emptyVars).2.1 "x"
      ≠ some (Value.string (specStripOneNewline "abc\n\n")) := by
  refine ⟨by decide, by decide, by decide⟩

/-- Claim C1 (amended): for a declaration whose backing file exists and is
readable, `process_bindings` inserts into the variable store the file's
content with ALL trailing line terminators (`'\n'`) removed — not just one —
and every other character, including other trailing whitespace such as
`'\r'`, spaces, or tabs, preserved: the inserted value is a prefix of the
content, the content is that prefix followed by some number of `'\n'`
characters, and the prefix does not end in `'\n'`. -/
theorem process_bindings_hydration {τ : Type}
    (evalT : Template τ → VariableSet → Except RunnerError String)
    (resolvedPath : String → String) (rfs : ReadFS) (bv : BoundVariables)
    (p : BindingParam τ) (rest : List (BindingParam τ)) (vars : VariableSet)
    (varName : String) (ft : Template τ) (fname content : String)
    (hn : evalT p.name vars = .ok varName)
    (hv : p.value = .file ft)
    (hf : evalT ft vars = .ok fname)
    (hex : rfs.pathExists (resolvedPath fname) = true)
    (hrd : rfs.readToString (resolvedPath fname) = .ok content) :
    process_bindings evalT resolvedPath rfs bv (p :: rest) vars
      = process_bindings evalT resolvedPath rfs
          (bv.insert varName (resolvedPath fname)) rest
          (VariableSet.insert vars varName (Value.string (trimEndNewlines content)))
    ∧ VariableSet.insert vars varName (Value.string (trimEndNewlines content)) varName
      = some (Value.string (trimEndNewlines content))
    ∧ (∃ k, content.data = (trimEndNewlines content).data ++ List.replicate k '\n')
    ∧ (∀ c, (trimEndNewlines content).data.getLast? = some c → c ≠ '\n') := by
  refine ⟨?_, ?_, trimEndNewlines_append_replicate content,
    trimEndNewlines_last_not_newline content⟩
  · simp [process_bindings, hn, hv, hf, hex, hrd]
  · simp [VariableSet.insert]

/-- Witness for `process_bindings_hydration` at a concrete input whose content
ends in `"\r\n"`: the `'\r'` survives hydration. -/
theorem process_bindings_hydration_witness :
    (readFSWith "f" "hi\r\n").readToString (idResolve "f") = .ok "hi\r\n"
    ∧ VariableSet.insert emptyVars "x" (Value.string (trimEndNewlines "hi\r\n")) "x"
      = some (Value.string (trimEndNewlines "hi\r\n"))
    ∧ trimEndNewlines "hi\r\n" = "hi\r" :=
  ⟨rfl,
    (process_bindings_hydration literalEval idResolve (readFSWith "f" "hi\r\n")
      emptyBound (declParam "x" "f" 0 1) [] emptyVars "x" ⟨"f", 1⟩ "f" "hi\r\n"
      rfl rfl rfl (by decide) rfl).2.1,
    by decide⟩

/-- Claim C9: for a declaration whose resolved backing file does not exist,
`process_bindings` registers the mapping, raises no error at that step
(processing continues with the remaining declarations), and passes the
variable store on unchanged. -/
theorem process_bindings_missing_file {τ : Type}
    (evalT : Template τ → VariableSet → Except RunnerError String)
    (resolvedPath : String → String) (rfs : ReadFS) (bv : BoundVariables)
    (p : BindingParam τ) (rest : List (BindingParam τ)) (vars : VariableSet)
    (varName : String) (ft : Template τ) (fname : String)
    (hn : evalT p.name vars = .ok varName)
    (hv : p.value = .file ft)
    (hf : evalT ft vars = .ok fname)
    (hnex : rfs.pathExists (resolvedPath fname) = false) :
    process_bindings evalT resolvedPath rfs bv (p :: rest) vars
      = process_bindings evalT resolvedPath rfs
          (bv.insert varName (resolvedPath fname)) rest vars
    ∧ (bv.insert varName (resolvedPath fname)).mappings varName
      = some (resolvedPath fname) := by
  constructor
  · simp [process_bindings, hn, hv, hf, hnex]
  · simp [BoundVariables.insert]

/-- Witness for `process_bindings_missing_file` at a concrete input. -/
theorem process_bindings_missing_file_witness :
    readFSEmpty.pathExists (idResolve "f") = false
    ∧ (emptyBound.insert "x" (idResolve "f")).mappings "x" = some (idResolve "f") :=
  ⟨rfl,
    (process_bindings_missing_file literalEval idResolve readFSEmpty emptyBound
      (declParam "x" "f" 0 1) [] emptyVars "x" ⟨"f", 1⟩ "f" rfl rfl rfl rfl).2⟩

/-- Claim C6: when a declaration's backing file exists but cannot be read,
`process_bindings` returns immediately: the result is the registry extended
with the mappings made so far including the failing declaration's, the
variable store as it was, and a read-access error carrying the resolved path
and the declaration's source location — the remaining declarations (`rest`)
are not processed (the result does not depend on them). -/
theorem process_bindings_read_failure {τ : Type}
    (evalT : Template τ → VariableSet → Except RunnerError String)
    (resolvedPath : String → String) (rfs : ReadFS) (bv : BoundVariables)
    (p : BindingParam τ) (rest : List (BindingParam τ)) (vars : VariableSet)
    (varName : String) (ft : Template τ) (fname msg : String)
    (hn : evalT p.name vars = .ok varName)
    (hv : p.value = .file ft)
    (hf : evalT ft vars = .ok fname)
    (hex : rfs.pathExists (resolvedPath fname) = true)
    (hrd : rfs.readToString (resolvedPath fname) = .error msg) :
    process_bindings evalT resolvedPath rfs bv (p :: rest) vars
      = (bv.insert varName (resolvedPath fname), vars,
          .error ⟨p.name.sourceInfo, .fileReadAccess (resolvedPath fname), false⟩) := by
  simp [process_bindings, hn, hv, hf, hex, hrd]

/-- Witness for `process_bindings_read_failure` at a concrete input; the
trailing declaration is demonstrably skipped. -/
theorem process_bindings_read_failure_witness :
    (readFSDenied "f").pathExists (idResolve "f") = true
    ∧ (process_bindings literalEval idResolve (readFSDenied "f") emptyBound
        [declParam "x" "f" 0 1, declParam "y" "g" 2 3] emptyVars).2.2
      = .error ⟨0, .fileReadAccess "f", false⟩ :=
  ⟨rfl,
    congrArg (fun r => r.2.2)
      (process_bindings_read_failure literalEval idResolve (readFSDenied "f")
        emptyBound (declParam "x" "f" 0 1) [declParam "y" "g" 2 3] emptyVars
        "x" ⟨"f", 1⟩ "f" "permission denied" rfl rfl rfl (by decide) rfl)⟩

/-- Claim C10: every value that `process_bindings` puts into the variable
store is string-typed, regardless of the text in the backing file: after a
pass, each name's entry is either exactly what it was before the pass, or
`Value.string s` for some `s`. Hence a non-string value persisted by
`bind_variable` (written as its display form) and later hydrated comes back
with string type, not its original type. -/
theorem process_bindings_hydrates_only_strings {τ : Type}
    (evalT : Template τ → VariableSet → Except RunnerError String)
    (resolvedPath : String → String) (rfs : ReadFS) (bv : BoundVariables)
    (params : List (BindingParam τ)) (vars : VariableSet) (n : String) :
    (process_bindings evalT resolvedPath rfs bv params vars).2.1 n = vars n
    ∨ ∃ s, (process_bindings evalT resolvedPath rfs bv params vars).2.1 n
        = some (Value.string s) := by
  induction params generalizing bv vars with
  | nil => left; rfl
  | cons p rest ih =>
    cases hn : evalT p.name vars with
    | error e => left; simp [process_bindings, hn]
    | ok varName =>
      cases hv : p.value with
      | file ft =>
        cases hf : evalT ft vars with
        | error e => left; simp [process_bindings, hn, hv, hf]
        | ok fname =>
          cases hex : rfs.pathExists (resolvedPath fname) with
          | false =>
            have h := ih (bv.insert varName (resolvedPath fname)) vars
            simpa [process_bindings, hn, hv, hf, hex] using h
          | true =>
            cases hrd : rfs.readToString (resolvedPath fname) with
            | error msg => left; simp [process_bindings, hn, hv, hf, hex, hrd]
            | ok content =>
              have h := ih (bv.insert varName (resolvedPath fname))
                (VariableSet.insert vars varName
                  (Value.string (trimEndNewlines content)))
              rcases h with h | h
              · by_cases hq : n = varName
                · right
                  refine ⟨trimEndNewlines content, ?_⟩
                  simp only [process_bindings, hn, hv, hf, hex, hrd, if_true]
                  rw [h]
                  simp [VariableSet.insert, hq]
                · left
                  simp only [process_bindings, hn, hv, hf, hex, hrd, if_true]
                  rw [h]
                  simp [VariableSet.insert, hq]
              · rcases h with ⟨s, hs⟩
                right
                refine ⟨s, ?_⟩
                simp only [process_bindings, hn, hv, hf, hex, hrd, if_true]
                exact hs

theorem process_bindings_mappings_eq {τ : Type}
    (evalT : Template τ → VariableSet → Except RunnerError String)
    (resolvedPath : String → String) (rfs : ReadFS)
    (params : List (BindingParam τ)) : ∀ (bv : BoundVariables) (vars : VariableSet),
    (process_bindings evalT resolvedPath rfs bv params vars).1
      = insertAll bv (bindingTrace evalT resolvedPath rfs params vars) := by
  induction params with
  | nil => intro bv vars; rfl
  | cons p rest ih =>
    intro bv vars
    cases hn : evalT p.name vars with
    | error e => simp [process_bindings, bindingTrace, hn, insertAll]
    | ok varName =>
      cases hv : p.value with
      | file ft =>
        cases hf : evalT ft vars with
        | error e => simp [process_bindings, bindingTrace, hn, hv, hf, insertAll]
        | ok fname =>
          cases hex : rfs.pathExists (resolvedPath fname) with
          | false =>
            simp only [process_bindings, bindingTrace, hn, hv, hf, hex,
              Bool.false_eq_true, if_false, insertAll]
            exact ih _ _
          | true =>
            cases hrd : rfs.readToString (resolvedPath fname) with
            | error msg =>
              simp [process_bindings, bindingTrace, hn, hv, hf, hex, hrd, insertAll]
            | ok content =>
              simp only [process_bindings, bindingTrace, hn, hv, hf, hex, hrd,
                if_true, insertAll]
              exact ih _ _

theorem insertAll_lookup (tr : List (String × String)) :
    ∀ (bv : BoundVariables) (n : String),
    (insertAll bv tr).mappings n = (lastAssoc n tr).elim (bv.mappings n) some := by
  induction tr with
  | nil => intro bv n; rfl
  | cons e rest ih =>
    intro bv n
    obtain ⟨m, q⟩ := e
    have h := ih (bv.insert m q) n
    cases hl : lastAssoc n rest with
    | some q' =>
      rw [hl] at h
      simp only [insertAll, lastAssoc, hl]
      exact h
    | none =>
      rw [hl] at h
      by_cases hm : m = n
      · subst hm
        simp only [insertAll, lastAssoc, hl, if_pos rfl]
        rw [h]
        simp [BoundVariables.insert]
      · simp only [insertAll, lastAssoc, hl, if_neg hm]
        rw [h]
        simp [BoundVariables.insert, Ne.symm hm]

theorem lastAssoc_of_mem (n q : String) (tr : List (String × String))
    (h : (n, q) ∈ tr) : ∃ q', lastAssoc n tr = some q' := by
  induction tr with
  | nil => cases h
  | cons e rest ih =>
    obtain ⟨m, r⟩ := e
    rcases List.mem_cons.mp h with he | ht
    · obtain ⟨h1, h2⟩ := Prod.mk.injEq .. ▸ he
      subst h1
      cases hl : lastAssoc n rest with
      | some q' => exact ⟨q', by simp [lastAssoc, hl]⟩
      | none => exact ⟨r, by simp [lastAssoc, hl]⟩
    · obtain ⟨q', hq'⟩ := ih ht
      exact ⟨q', by simp [lastAssoc, hq']⟩

theorem process_bindings_trace_length {τ : Type}
    (evalT : Template τ → VariableSet → Except RunnerError String)
    (resolvedPath : String → String) (rfs : ReadFS)
    (params : List (BindingParam τ)) : ∀ (bv : BoundVariables) (vars : VariableSet),
    (process_bindings evalT resolvedPath rfs bv params vars).2.2 = .ok () →
    (bindingTrace evalT resolvedPath rfs params vars).length = params.length := by
  induction params with
  | nil => intro bv vars _; rfl
  | cons p rest ih =>
    intro bv vars hok
    cases hn : evalT p.name vars with
    | error e => simp [process_bindings, hn] at hok
    | ok varName =>
      cases hv : p.value with
      | file ft =>
        cases hf : evalT ft vars with
        | error e => simp [process_bindings, hn, hv, hf] at hok
        | ok fname =>
          cases hex : rfs.pathExists (resolvedPath fname) with
          | false =>
            simp only [process_bindings, hn, hv, hf, hex, Bool.false_eq_true,
              if_false] at hok
            simp only [bindingTrace, hn, hv, hf, hex, Bool.false_eq_true, if_false,
              List.length_cons]
            rw [ih _ _ hok]
          | true =>
            cases hrd : rfs.readToString (resolvedPath fname) with
            | error msg =>
              simp [process_bindings, hn, hv, hf, hex, hrd] at hok
            | ok content =>
              simp only [process_bindings, hn, hv, hf, hex, hrd, if_true] at hok
              simp only [bindingTrace, hn, hv, hf, hex, hrd, if_true,
                List.length_cons]
              rw [ih _ _ hok]

/-- Claim C8: after a successful `process_bindings` pass, every declaration
contributes a (rendered name, resolved path) entry to the pass's trace (the
trace covers all declarations), every traced name is bound (`is_bound` is
true, independent of whether the backing file existed), and each name is
mapped to the resolved path of its LAST declaration in the pass: re-declaring
an already-bound name overwrites the prior path mapping. -/
theorem process_bindings_registers_all {τ : Type}
    (evalT : Template τ → VariableSet → Except RunnerError String)
    (resolvedPath : String → String) (rfs : ReadFS) (bv : BoundVariables)
    (params : List (BindingParam τ)) (vars : VariableSet)
    (hok : (process_bindings evalT resolvedPath rfs bv params vars).2.2 = .ok ()) :
    (bindingTrace evalT resolvedPath rfs params vars).length = params.length
    ∧ (∀ n q, (n, q) ∈ bindingTrace evalT resolvedPath rfs params vars →
        (process_bindings evalT resolvedPath rfs bv params vars).1.is_bound n = true)
    ∧ (∀ n q, lastAssoc n (bindingTrace evalT resolvedPath rfs params vars) = some q →
        (process_bindings evalT resolvedPath rfs bv params vars).1.mappings n = some q) := by
  refine ⟨process_bindings_trace_length evalT resolvedPath rfs params bv vars hok, ?_, ?_⟩
  · intro n q hm
    obtain ⟨q', hq'⟩ := lastAssoc_of_mem n q _ hm
    rw [BoundVariables.is_bound, process_bindings_mappings_eq, insertAll_lookup, hq']
    rfl
  · intro n q hq
    rw [process_bindings_mappings_eq, insertAll_lookup, hq]
    rfl

/-- Witness for `process_bindings_registers_all`: two declarations re-declare
`"x"`, first to `"f1"` then to `"f2"`; after the successful pass `"x"` is
bound and mapped to `"f2"` (the overwrite). -/
theorem process_bindings_registers_all_witness :
    (process_bindings literalEval idResolve readFSEmpty emptyBound paramsRedecl emptyVars).2.2
      = .ok ()
    ∧ (process_bindings literalEval idResolve readFSEmpty emptyBound paramsRedecl emptyVars).1.is_bound "x"
      = true
    ∧ (process_bindings literalEval idResolve readFSEmpty emptyBound paramsRedecl emptyVars).1.mappings "x"
      = some "f2" :=
  ⟨rfl,
    (process_bindings_registers_all literalEval idResolve readFSEmpty emptyBound
      paramsRedecl emptyVars rfl).2.1 "x" "f1" (by decide),
    (process_bindings_registers_all literalEval idResolve readFSEmpty emptyBound
      paramsRedecl emptyVars rfl).2.2 "x" "f2" (by decide)⟩
